import Mathlib

/-!
Verification of the adomcp repository: a shallow embedding of the MCP
server (src/mcp/server.go, src/mcp/types.go) and of the Azure DevOps URL
parser (src/azuredevops/parser.go), together with theorems settling the
frozen claims about the natural-language specification.

Modelling conventions:
* Go `interface{}` values decoded from JSON are modelled by the `Json`
  inductive below; JSON numbers are carried as `Int` (the source never
  inspects fractional values at the layers the claims concern).
* Go `error` results are modelled by `Except String` carrying the value of
  `err.Error()`.
* Go maps used as registries are modelled as association lists with
  first-match lookup (registration prepends, so later registrations win,
  matching Go map overwrite semantics).
* A Go buffered channel is modelled by `ChanState` (a FIFO buffer with a
  capacity); a send on a full channel is `blocked`, matching the blocking
  semantics of `msgChan <- msg`.
-/

/-- JSON values, the model of Go dynamically typed JSON data
(`interface{}` after `json.Unmarshal`, and `json.RawMessage` payloads). -/
inductive Json where
  | null : Json
  | bool (b : Bool) : Json
  | num (n : Int) : Json
  | str (s : String) : Json
  | arr (elems : List Json) : Json
  | obj (fields : List (String × Json)) : Json

/-- Last value bound to an exactly matching key in a JSON object, the model
of Go encoding/json keeping the final occurrence of a duplicated key. -/
def lastExactKey (fields : List (String × Json)) (k : String) : Option Json :=
  fields.foldl (fun acc f => if f.1 = k then some f.2 else acc) none

/-- ASCII lowercasing of one character, the model of the case folding Go
encoding/json applies when matching object keys to struct field names. -/
def charLower (c : Char) : Char :=
  if 'A' ≤ c ∧ c ≤ 'Z' then Char.ofNat (c.toNat + 32) else c

/-- Case-folded character list of a string. -/
def strFold (s : String) : List Char :=
  s.toList.map charLower

/-- Last value bound to a case-insensitively matching key. -/
def lastCaseKey (fields : List (String × Json)) (k : String) : Option Json :=
  fields.foldl (fun acc f => if strFold f.1 = strFold k then some f.2 else acc) none

/-- Field lookup as Go encoding/json performs it when filling a struct
field: an exact key match is preferred, otherwise a case-insensitive one. -/
def getField (fields : List (String × Json)) (k : String) : Option Json :=
  match lastExactKey fields k with
  | some v => some v
  | none => lastCaseKey fields k

/-- Argument mapping passed to a tool handler: the model of the Go
`map[string]interface{}` decoded from the request's `arguments` field. -/
abbrev ArgMap := List (String × Json)

/-- Content block of a tool result (src/mcp/types.go `Content`). -/
structure Content where
  type : String
  text : String

/-- Result of a tool invocation (src/mcp/types.go `CallToolResult`). -/
structure CallToolResult where
  Content : List Content
  IsError : Bool

/-- A registered tool (src/mcp/types.go `Tool`). -/
structure Tool where
  Name : String
  Description : String
  InputSchema : Json

/-- Decoded `tools/call` parameters (src/mcp/types.go `CallToolRequest`). -/
structure CallToolRequest where
  Name : String
  Arguments : ArgMap

/-- A tool handler (src/mcp/server.go `ToolHandler`): from an argument
mapping to a `*CallToolResult` (the `Option` models the pointer, which the
source may in principle return as nil alongside a nil error) or a Go error
carrying its message. -/
def ToolHandler := ArgMap → Except String (Option CallToolResult)

/-- JSON-RPC request (src/mcp/types.go `JSONRPCRequest`).  `Params` is a
`json.RawMessage` in the source: absent params are `none`, present params
(including JSON null) keep the raw value.  `ID` is `interface{}`: a JSON
null or an absent id both decode to Go nil, modelled as `Json.null`. -/
structure JSONRPCRequest where
  JSONRPC : String
  Method : String
  Params : Option Json
  ID : Json

/-- JSON-RPC error object (src/mcp/types.go `JSONRPCError`). -/
structure JSONRPCError where
  Code : Int
  Message : String
  Data : Option Json

/-- The values the source stores in `JSONRPCResponse.Result`
(an `interface{}` field), one constructor per assignment site in
`processRequest`: the `tools/list` map, the `CallToolResult` value built on
handler error, the `*CallToolResult` returned by a handler (`none` models a
nil pointer), and the static `initialize` payload. -/
inductive RpcResult where
  | toolsList (tools : List Tool) : RpcResult
  | callToolVal (r : CallToolResult) : RpcResult
  | callToolPtr (r : Option CallToolResult) : RpcResult
  | initInfo (protocolVersion serverName serverVersion : String) : RpcResult

/-- JSON-RPC response (src/mcp/types.go `JSONRPCResponse`).  `Result` and
`Error` are nullable in the source (`interface{}` / pointer), modelled as
options. -/
structure JSONRPCResponse where
  JSONRPC : String
  Result : Option RpcResult
  Error : Option JSONRPCError
  ID : Json

/-- The MCP server's registries (src/mcp/server.go `Server`): tool metadata
and handlers, keyed by tool name.  The session map of the source is
modelled separately (`handleMessage`, `ChanState`), since the claims treat
it through the session directory. -/
structure Server where
  Tools : List (String × Tool)
  Handlers : List (String × ToolHandler)

/-- Go map lookup over the association-list model (first match wins, and
registration prepends, giving Go's overwrite semantics). -/
def lookupMap {α : Type} (m : List (String × α)) (k : String) : Option α :=
  (m.find? (fun p => p.1 == k)).map (fun p => p.2)

/-- RegisterTool (src/mcp/server.go): store the tool and its handler under
the tool's name. -/
def registerTool (s : Server) (t : Tool) (h : ToolHandler) : Server :=
  { Tools := (t.Name, t) :: s.Tools, Handlers := (t.Name, h) :: s.Handlers }

/-- Go `json.Unmarshal` of a JSON value into a `string` struct field: an
absent field or JSON null leaves the zero value, a string is taken as is,
and any other value is a type error. -/
def decodeStringField (fields : List (String × Json)) (k : String) :
    Except Unit String :=
  match getField fields k with
  | none => Except.ok ""
  | some Json.null => Except.ok ""
  | some (Json.str s) => Except.ok s
  | some _ => Except.error ()

/-- Go `json.Unmarshal` of a JSON value into a `map[string]interface{}`
struct field: absent or null gives the nil map, an object gives its
fields, anything else is a type error. -/
def decodeArgsField (fields : List (String × Json)) (k : String) :
    Except Unit ArgMap :=
  match getField fields k with
  | none => Except.ok []
  | some Json.null => Except.ok []
  | some (Json.obj o) => Except.ok o
  | some _ => Except.error ()

/-- The `json.Unmarshal(req.Params, &callReq)` step of the `tools/call`
branch.  A nil `RawMessage` (absent params) is an unmarshal error; JSON
null leaves the zero `CallToolRequest`; an object decodes its `name` and
`arguments` fields; any other value is a type error. -/
def decodeCallToolRequest : Option Json → Except Unit CallToolRequest
  | none => Except.error ()
  | some Json.null => Except.ok { Name := "", Arguments := [] }
  | some (Json.obj fields) =>
    match decodeStringField fields "name" with
    | Except.error e => Except.error e
    | Except.ok name =>
      match decodeArgsField fields "arguments" with
      | Except.error e => Except.error e
      | Except.ok args => Except.ok { Name := name, Arguments := args }
  | some _ => Except.error ()

/-- The dispatcher `processRequest` (src/mcp/server.go, lines 117-179), up
to but not including the final marshal-and-send (modelled separately by
`dispatchRequest`).  Returns the response to be sent (`none` for the
notification branch, which returns early) together with the list of tool
handlers invoked while processing, in invocation order. -/
def processRequest (s : Server) (req : JSONRPCRequest) :
    Option JSONRPCResponse × List String :=
  if req.Method = "tools/list" then
    (some { JSONRPC := "2.0", Result := some (RpcResult.toolsList (s.Tools.map Prod.snd)),
            Error := none, ID := req.ID }, [])
  else if req.Method = "tools/call" then
    match decodeCallToolRequest req.Params with
    | Except.error _ =>
      (some { JSONRPC := "2.0", Result := none,
              Error := some { Code := -32602, Message := "Invalid params", Data := none },
              ID := req.ID }, [])
    | Except.ok callReq =>
      match lookupMap s.Handlers callReq.Name with
      | none =>
        (some { JSONRPC := "2.0", Result := none,
                Error := some { Code := -32601, Message := "Method not found", Data := none },
                ID := req.ID }, [])
      | some handler =>
        match handler callReq.Arguments with
        | Except.error msg =>
          (some { JSONRPC := "2.0",
                  Result := some (RpcResult.callToolVal
                    { Content := [{ type := "text", text := msg }], IsError := true }),
                  Error := none, ID := req.ID }, [callReq.Name])
        | Except.ok r =>
          (some { JSONRPC := "2.0", Result := some (RpcResult.callToolPtr r),
                  Error := none, ID := req.ID }, [callReq.Name])
  else if req.Method = "initialize" then
    (some { JSONRPC := "2.0",
            Result := some (RpcResult.initInfo "2024-11-05" "adomcp" "1.0.0"),
            Error := none, ID := req.ID }, [])
  else if req.Method = "notifications/initialized" then
    (none, [])
  else
    (some { JSONRPC := "2.0", Result := none,
            Error := some { Code := -32601, Message := "Method not found: " ++ req.Method,
                            Data := none },
            ID := req.ID }, [])

/-- Lowercase hex digit, as Go's JSON encoder writes in escape sequences. -/
def hexDigitChar (n : Nat) : Char :=
  if n < 10 then Char.ofNat (48 + n) else Char.ofNat (97 + (n - 10))

/-- Escape one character the way Go `json.Marshal` renders it inside a
string literal (HTML-escaping of angle brackets and ampersand included,
as Go's top-level Marshal does by default). -/
def escapeChar (c : Char) : String :=
  if c = '"' then "\\\""
  else if c = '\\' then "\\\\"
  else if c = '\n' then "\\n"
  else if c = '\r' then "\\r"
  else if c = '\t' then "\\t"
  else if c = '<' then "\\u003c"
  else if c = '>' then "\\u003e"
  else if c = '&' then "\\u0026"
  else if c.toNat < 32 then
    "\\u00" ++ String.mk [hexDigitChar (c.toNat / 16), hexDigitChar (c.toNat % 16)]
  else String.singleton c

/-- Render a string as a JSON string literal. -/
def renderString (s : String) : String :=
  "\"" ++ String.join (s.toList.map escapeChar) ++ "\""

mutual

/-- Serialize a JSON value, the model of `json.Marshal` on the dynamic
data the server emits. -/
def Json.render : Json → String
  | Json.null => "null"
  | Json.bool true => "true"
  | Json.bool false => "false"
  | Json.num n => toString n
  | Json.str s => renderString s
  | Json.arr elems => "[" ++ Json.renderList elems ++ "]"
  | Json.obj fields => "\x7b" ++ Json.renderObj fields ++ "\x7d"

/-- Comma-separated rendering of array elements. -/
def Json.renderList : List Json → String
  | [] => ""
  | [x] => Json.render x
  | x :: y :: rest => Json.render x ++ "," ++ Json.renderList (y :: rest)

/-- Comma-separated rendering of object members. -/
def Json.renderObj : List (String × Json) → String
  | [] => ""
  | [f] => renderString f.1 ++ ":" ++ Json.render f.2
  | f :: g :: rest => renderString f.1 ++ ":" ++ Json.render f.2 ++ "," ++ Json.renderObj (g :: rest)

end

/-- JSON shape of a `Tool` (struct field order of src/mcp/types.go). -/
def toolToJson (t : Tool) : Json :=
  Json.obj [("name", Json.str t.Name), ("description", Json.str t.Description),
            ("inputSchema", t.InputSchema)]

/-- JSON shape of a `Content` block (`text` has omitempty). -/
def contentToJson (c : Content) : Json :=
  Json.obj ([("type", Json.str c.type)] ++ (if c.text = "" then [] else [("text", Json.str c.text)]))

/-- JSON shape of a `CallToolResult` (`isError` has omitempty). -/
def callToolResultToJson (r : CallToolResult) : Json :=
  Json.obj ([("content", Json.arr (r.Content.map contentToJson))] ++
            (if r.IsError then [("isError", Json.bool true)] else []))

/-- JSON shape of each `Result` payload.  Go marshals its map literals with
keys in sorted order, which the object field lists below follow. -/
def rpcResultToJson : RpcResult → Json
  | RpcResult.toolsList tools => Json.obj [("tools", Json.arr (tools.map toolToJson))]
  | RpcResult.callToolVal r => callToolResultToJson r
  | RpcResult.callToolPtr none => Json.null
  | RpcResult.callToolPtr (some r) => callToolResultToJson r
  | RpcResult.initInfo pv n v =>
    Json.obj [("capabilities", Json.obj [("tools", Json.obj [])]),
              ("protocolVersion", Json.str pv),
              ("serverInfo", Json.obj [("name", Json.str n), ("version", Json.str v)])]

/-- JSON shape of a `JSONRPCError` (`data` has omitempty). -/
def errorToJson (e : JSONRPCError) : Json :=
  Json.obj ([("code", Json.num e.Code), ("message", Json.str e.Message)] ++
            (match e.Data with | none => [] | some d => [("data", d)]))

/-- JSON shape of a `JSONRPCResponse`: struct field order, `result` /
`error` / `id` all omitempty (a nil-pointer `*CallToolResult` stored in
the `Result` interface is NOT omitted and renders as null). -/
def responseToJson (r : JSONRPCResponse) : Json :=
  Json.obj ([("jsonrpc", Json.str r.JSONRPC)] ++
            (match r.Result with | none => [] | some res => [("result", rpcResultToJson res)]) ++
            (match r.Error with | none => [] | some e => [("error", errorToJson e)]) ++
            (match r.ID with | Json.null => [] | j => [("id", j)]))

/-- The `json.Marshal(response)` step of `processRequest`.  The source
discards the marshal error; no value `processRequest` builds can fail to
marshal, so the model is total. -/
def marshalResponse (r : JSONRPCResponse) : String :=
  (responseToJson r).render

/-- A session's outbound queue: the model of the Go buffered channel
`make(chan string, 10)`, a FIFO buffer with a fixed capacity. -/
structure ChanState where
  buf : List String
  cap : Nat

/-- Outcome of one send on the channel: Go `ch <- m` completes at once when
the buffer has room and otherwise leaves the sending goroutine blocked. -/
inductive SendOutcome where
  | sent (c : ChanState) : SendOutcome
  | blocked : SendOutcome

/-- One send attempt on the buffered channel. -/
def trySend (c : ChanState) (m : String) : SendOutcome :=
  if c.buf.length < c.cap then SendOutcome.sent { buf := c.buf ++ [m], cap := c.cap }
  else SendOutcome.blocked

/-- Outcome of a whole dispatch task for one request: the notification
branch produces nothing; otherwise the marshaled response is sent on the
session's channel, either landing in the buffer or leaving the task
blocked on a full buffer. -/
inductive DispatchOutcome where
  | noResponse : DispatchOutcome
  | sent (c : ChanState) : DispatchOutcome
  | blocked : DispatchOutcome

/-- The tail of `processRequest` (src/mcp/server.go lines 178-179): marshal
the response, if any, and send it on the session's channel. -/
def dispatchRequest (s : Server) (req : JSONRPCRequest) (c : ChanState) : DispatchOutcome :=
  match (processRequest s req).1 with
  | none => DispatchOutcome.noResponse
  | some resp =>
    match trySend c (marshalResponse resp) with
    | SendOutcome.sent c2 => DispatchOutcome.sent c2
    | SendOutcome.blocked => DispatchOutcome.blocked

/-- State of one session's delivery machinery: the channel, and whether the
`handleSSE` loop consuming it is still running (the loop exits, and the
session directory entry is removed, when the connection's context is
cancelled). -/
structure SessionSys where
  chan : ChanState
  consumerAlive : Bool

/-- Events the session system can undergo: a producer goroutine completing
a send (needs buffer room), the streaming loop consuming the oldest
buffered message (needs the loop alive), and cancellation of the
connection's context (which stops the loop). -/
inductive SysStep : SessionSys → SessionSys → Prop
  | send (s : SessionSys) (m : String) (h : s.chan.buf.length < s.chan.cap) :
      SysStep s { chan := { buf := s.chan.buf ++ [m], cap := s.chan.cap },
                  consumerAlive := s.consumerAlive }
  | recv (s : SessionSys) (m : String) (rest : List String)
      (halive : s.consumerAlive = true) (hbuf : s.chan.buf = m :: rest) :
      SysStep s { chan := { buf := rest, cap := s.chan.cap }, consumerAlive := true }
  | cancel (s : SessionSys) (halive : s.consumerAlive = true) :
      SysStep s { chan := s.chan, consumerAlive := false }

/-- Outcome of one call to the message-submission endpoint: the HTTP status
written, and the JSON-RPC request forwarded to the asynchronously spawned
`processRequest` task, if any. -/
structure MessageOutcome where
  status : Nat
  dispatched : Option JSONRPCRequest

/-- Go `json.NewDecoder(r.Body).Decode(&req)` into a `JSONRPCRequest`:
`none` models a body that is not valid JSON at all; JSON null leaves the
zero request; an object decodes its fields (`params` is captured raw,
`id` is dynamic); any other value is a type error. -/
def decodeJSONRPCRequest : Option Json → Except Unit JSONRPCRequest
  | none => Except.error ()
  | some Json.null => Except.ok { JSONRPC := "", Method := "", Params := none, ID := Json.null }
  | some (Json.obj fields) =>
    match decodeStringField fields "jsonrpc" with
    | Except.error e => Except.error e
    | Except.ok j =>
      match decodeStringField fields "method" with
      | Except.error e => Except.error e
      | Except.ok m =>
        Except.ok { JSONRPC := j, Method := m, Params := getField fields "params",
                    ID := (getField fields "id").getD Json.null }
  | some _ => Except.error ()

/-- The message-submission handler `handleMessage` (src/mcp/server.go,
lines 85-115), over the session directory, the HTTP method, the
`sessionId` query parameter (empty when absent), and the decoded body. -/
def handleMessage (dir : List (String × ChanState)) (method : String)
    (sessionId : String) (body : Option Json) : MessageOutcome :=
  if method ≠ "POST" then { status := 405, dispatched := none }
  else if sessionId = "" then { status := 400, dispatched := none }
  else
    match lookupMap dir sessionId with
    | none => { status := 404, dispatched := none }
    | some _ =>
      match decodeJSONRPCRequest body with
      | Except.error _ => { status := 400, dispatched := none }
      | Except.ok req => { status := 202, dispatched := some req }

/-- Inputs driving one iteration of the `handleSSE` select loop: a message
arriving on the session channel, or the connection context ending. -/
inductive SSEInput where
  | msg (m : String) : SSEInput
  | cancel : SSEInput

/-- Events written on the SSE stream. -/
inductive SSEEvent where
  | endpointEv (dataStr : String) : SSEEvent
  | messageEv (dataStr : String) : SSEEvent

/-- The select loop of `handleSSE`: each delivered message becomes one
`event: message` write; context cancellation ends the stream. -/
def sseLoop : List SSEInput → List SSEEvent
  | [] => []
  | SSEInput.msg m :: rest => SSEEvent.messageEv m :: sseLoop rest
  | SSEInput.cancel :: _ => []

/-- The events `handleSSE` (src/mcp/server.go, lines 46-83) writes on one
stream for a session with the given generated identifier: first the
endpoint announcement built by the `fmt.Sprintf` on line 65, then the
loop's message events. -/
def handleSSE (sid : String) (inputs : List SSEInput) : List SSEEvent :=
  SSEEvent.endpointEv ("/message?sessionId=" ++ sid) :: sseLoop inputs

/-- Resource kinds of src/azuredevops/parser.go (`ResourceType`). -/
inductive ResourceType where
  | unknown : ResourceType
  | build : ResourceType
  | release : ResourceType
deriving DecidableEq

/-- Parsed deep-link data (src/azuredevops/parser.go `ParsedResource`). -/
structure ParsedResource where
  type : ResourceType
  Project : String
  ID : Int
deriving DecidableEq

/-- Go `strings.Contains` on character lists (substring occurrence). -/
def listContains (sub : List Char) : List Char → Bool
  | [] => sub.isEmpty
  | c :: rest => sub.isPrefixOf (c :: rest) || listContains sub rest

/-- Go `strings.Contains`. -/
def goContains (s sub : String) : Bool :=
  listContains sub.toList s.toList

/-- The characters before the first occurrence of `sub`, i.e.
`strings.Split(s, sub)[0]` for the nonempty separators the parser uses
(the source only ever reads element 0 of the split). -/
def beforeFirst (sub : List Char) : List Char → List Char
  | [] => []
  | c :: rest => if sub.isPrefixOf (c :: rest) then [] else c :: beforeFirst sub rest

/-- Go `strings.TrimRight(s, "/")`. -/
def trimRightSlashes (l : List Char) : List Char :=
  (l.reverse.dropWhile (fun c => c == '/')).reverse

/-- The characters after the last slash, i.e. the last element of
`strings.Split(prefixPart, "/")` (which is never empty, so the source's
`len(pathParts) > 0` guard is always true). -/
def afterLastSlash (l : List Char) : List Char :=
  l.foldl (fun acc c => if c == '/' then [] else acc ++ [c]) []

/-- Hex digit value, as `net/url`'s unescaper reads it. -/
def unhex (c : Char) : Option Nat :=
  if '0' ≤ c ∧ c ≤ '9' then some (c.toNat - 48)
  else if 'a' ≤ c ∧ c ≤ 'f' then some (c.toNat - 97 + 10)
  else if 'A' ≤ c ∧ c ≤ 'F' then some (c.toNat - 65 + 10)
  else none

/-- Go `url.QueryUnescape` at character granularity: `%XY` becomes the
character with code `0xXY`, `+` becomes a space, a malformed escape is an
error (on which the Go function returns the empty string).  Multi-byte
UTF-8 sequences are modelled one escaped byte per character. -/
def queryUnescapeChars : List Char → Option (List Char)
  | [] => some []
  | '%' :: a :: b :: rest =>
    match unhex a, unhex b with
    | some ha, some hb =>
      (queryUnescapeChars rest).map (fun r => Char.ofNat (16 * ha + hb) :: r)
    | _, _ => none
  | '%' :: _ => none
  | '+' :: rest => (queryUnescapeChars rest).map (fun r => ' ' :: r)
  | c :: rest => (queryUnescapeChars rest).map (fun r => c :: r)

/-- The project-extraction block of `ParseURL` (lines 41-52 and 73-80 of
src/azuredevops/parser.go): the part of the path before the marker, with
trailing slashes trimmed, its last slash-separated segment, query-unescaped
with the error discarded (Go's `QueryUnescape` returns the empty string
alongside an error, so a bad escape leaves the empty project). -/
def extractProject (path marker : String) : String :=
  let pre := trimRightSlashes (beforeFirst marker.toList path.toList)
  String.mk ((queryUnescapeChars (afterLastSlash pre)).getD [])

/-- Go `strconv.Atoi` digits: value of a nonempty all-digit string. -/
def digitsVal : List Char → Option Nat → Option Nat
  | [], acc => acc
  | c :: rest, acc =>
    if c.isDigit then digitsVal rest (some ((acc.getD 0) * 10 + (c.toNat - 48)))
    else none

/-- Largest magnitude `strconv.Atoi` accepts for a nonnegative numeral on
a 64-bit platform: the `int` maximum 2^63 - 1. -/
def int64MaxNat : Nat := 9223372036854775807

/-- Largest magnitude `strconv.Atoi` accepts for a negative numeral: the
absolute value 2^63 of the `int` minimum. -/
def int64NegMagNat : Nat := 9223372036854775808

/-- Go `strconv.Atoi`: optional sign then at least one digit, failing
(`ErrRange`) when the value lies outside the 64-bit `int` range — the
caller at parser.go lines 38-39 and 71-72 only tests `err == nil`, so an
out-of-range numeral falls through like any other parse failure. -/
def goAtoi (s : String) : Option Int :=
  match s.toList with
  | '+' :: rest =>
    (digitsVal rest none).bind (fun n =>
      if n ≤ int64MaxNat then some (Int.ofNat n) else none)
  | '-' :: rest =>
    (digitsVal rest none).bind (fun n =>
      if n ≤ int64NegMagNat then some (-(Int.ofNat n : Int)) else none)
  | cs =>
    (digitsVal cs none).bind (fun n =>
      if n ≤ int64MaxNat then some (Int.ofNat n) else none)

/-- Sanity check at the overflow boundary: 2^63 is out of range for
`strconv.Atoi` (so a `buildId=9223372036854775808` query makes the build
branch fall through), while 2^63 - 1 parses. -/
theorem goAtoi_range_boundary :
    goAtoi "9223372036854775808" = none ∧
      goAtoi "9223372036854775807" = some 9223372036854775807 ∧
      goAtoi "-9223372036854775808" = some (-9223372036854775808) ∧
      goAtoi "-9223372036854775809" = none := by
  refine ⟨by decide, by decide, by decide, by decide⟩

/-- Go `url.Values.Get`: first value for the key, empty string if absent. -/
def queryGet (q : List (String × String)) (k : String) : String :=
  ((q.find? (fun p => p.1 == k)).map (fun p => p.2)).getD ""

/-- The id-extraction step the parser performs for one marker: read the
query parameter, and when it is nonempty run `strconv.Atoi` on it. -/
def idParam (q : List (String × String)) (k : String) : Option Int :=
  let s := queryGet q k
  if s ≠ "" then goAtoi s else none

/-- Error message of the final return of `ParseURL`. -/
def parseURLErr : String := "could not parse build or release info from URL"

/-- The release half of `ParseURL` (lines 68-93), reached when the build
half does not return. -/
def parseRelease (path : String) (query : List (String × String)) :
    Except String ParsedResource :=
  if goContains path "/_release" then
    match idParam query "releaseId" with
    | some rid =>
      Except.ok { type := ResourceType.release, Project := extractProject path "/_release",
                  ID := rid }
    | none => Except.error parseURLErr
  else Except.error parseURLErr

/-- `ParseURL` (src/azuredevops/parser.go, lines 24-94) over the path and
decoded query of an already-parsed URL; the `url.Parse` step of the source
is the input boundary of the embedding.  The source's `len(parts) > 0`
guards after each split are always true and are folded into
`extractProject`. -/
def ParseURL (path : String) (query : List (String × String)) :
    Except String ParsedResource :=
  if goContains path "/_build" then
    match idParam query "buildId" with
    | some bid =>
      Except.ok { type := ResourceType.build, Project := extractProject path "/_build",
                  ID := bid }
    | none => parseRelease path query
  else parseRelease path query

/-- The claim's description of `ParseURL`, written from its words: a
`ParsedResource` is produced exactly when the path contains `/_build`
with an integer `buildId` query parameter (checked first) or contains
`/_release` with an integer `releaseId`; the resource carries the
corresponding type, that integer, and the URL-unescaped last path segment
preceding the marker; every other URL yields no resource. -/
def parseURLSpec (path : String) (query : List (String × String)) :
    Option ParsedResource :=
  match (if goContains path "/_build" then goAtoi (queryGet query "buildId") else none) with
  | some bid =>
    some { type := ResourceType.build, Project := extractProject path "/_build", ID := bid }
  | none =>
    match (if goContains path "/_release" then goAtoi (queryGet query "releaseId") else none) with
    | some rid =>
      some { type := ResourceType.release, Project := extractProject path "/_release", ID := rid }
    | none => none

theorem goAtoi_empty : goAtoi "" = none := rfl

theorem idParam_eq_goAtoi (q : List (String × String)) (k : String) :
    idParam q k = goAtoi (queryGet q k) := by
  unfold idParam
  by_cases h : queryGet q k = ""
  · rw [h]
    simp [goAtoi_empty]
  · simp [h]

/-- C10: ParseURL succeeds exactly on the URLs whose path contains
`/_build` with an integer `buildId` query parameter or `/_release` with an
integer `releaseId` (build checked first), producing the corresponding
type, that integer id, and the unescaped last path segment before the
marker; every other URL yields an error. -/
theorem parseURL_matches_spec (path : String) (query : List (String × String)) :
    (ParseURL path query).toOption = parseURLSpec path query := by
  unfold ParseURL parseRelease parseURLSpec
  simp only [idParam_eq_goAtoi]
  cases hb : goContains path "/_build" <;>
    cases hr : goContains path "/_release" <;>
      cases hba : goAtoi (queryGet query "buildId") <;>
        cases hra : goAtoi (queryGet query "releaseId") <;>
          simp [hb, hr, hba, hra, Except.toOption]

/-- C7: every response the dispatcher produces carries its request's
correlation identifier unchanged, in every method branch including all
error branches. -/
theorem response_id_matches_request (s : Server) (req : JSONRPCRequest)
    (resp : JSONRPCResponse) (tr : List String)
    (h : processRequest s req = (some resp, tr)) : resp.ID = req.ID := by
  unfold processRequest at h
  repeat' split at h
  all_goals simp only [Prod.mk.injEq, Option.some.injEq] at h
  all_goals first
    | exact absurd h.1 (by simp)
    | (rw [← h.1])

/-- C8: every response the dispatcher produces carries exactly one of a
result payload or an error object, never both and never neither, across
all method branches. -/
theorem response_result_xor_error (s : Server) (req : JSONRPCRequest)
    (resp : JSONRPCResponse) (tr : List String)
    (h : processRequest s req = (some resp, tr)) :
    (resp.Result.isSome = true ∧ resp.Error = none) ∨
      (resp.Result = none ∧ resp.Error.isSome = true) := by
  unfold processRequest at h
  repeat' split at h
  all_goals simp only [Prod.mk.injEq, Option.some.injEq] at h
  all_goals first
    | exact absurd h.1 (by simp)
    | (rw [← h.1]; simp)

/-- A handler that succeeds with one text block. -/
def okHandler : ToolHandler := fun _ =>
  Except.ok (some { Content := [{ type := "text", text := "ok" }], IsError := false })

/-- A handler that fails with message "boom". -/
def boomHandler : ToolHandler := fun _ => Except.error "boom"

/-- A concrete registry with one succeeding and one failing tool, used by
the witnesses below. -/
def exampleServer : Server :=
  { Tools := [("ok_tool", { Name := "ok_tool", Description := "succeeds",
                            InputSchema := Json.obj [] }),
              ("boom_tool", { Name := "boom_tool", Description := "fails",
                              InputSchema := Json.obj [] })],
    Handlers := [("ok_tool", okHandler), ("boom_tool", boomHandler)] }

/-- C3: a `tools/call` naming a registered tool whose handler fails yields
a JSON-RPC success envelope (no error object) whose result is a
`CallToolResult` with `IsError` true and exactly one text block carrying
the failure's message. -/
theorem toolsCall_handler_failure (s : Server) (req : JSONRPCRequest)
    (cr : CallToolRequest) (handler : ToolHandler) (msg : String)
    (hm : req.Method = "tools/call")
    (hd : decodeCallToolRequest req.Params = Except.ok cr)
    (hh : lookupMap s.Handlers cr.Name = some handler)
    (he : handler cr.Arguments = Except.error msg) :
    (processRequest s req).1 =
      some { JSONRPC := "2.0",
             Result := some (RpcResult.callToolVal
               { Content := [{ type := "text", text := msg }], IsError := true }),
             Error := none, ID := req.ID } := by
  unfold processRequest
  rw [hm]
  simp [hd, hh, he]

/-- A `tools/call` request naming the failing example tool. -/
def boomReq : JSONRPCRequest :=
  { JSONRPC := "2.0", Method := "tools/call",
    Params := some (Json.obj [("name", Json.str "boom_tool")]), ID := Json.num 7 }

theorem toolsCall_handler_failure_witness :
    (processRequest exampleServer boomReq).1 =
      some { JSONRPC := "2.0",
             Result := some (RpcResult.callToolVal
               { Content := [{ type := "text", text := "boom" }], IsError := true }),
             Error := none, ID := Json.num 7 } :=
  toolsCall_handler_failure exampleServer boomReq
    { Name := "boom_tool", Arguments := [] } boomHandler "boom" rfl rfl rfl rfl

/-- C4: a `tools/call` with well-formed params naming an unregistered tool
is answered with a JSON-RPC error object with code -32601 and no result
payload. -/
theorem toolsCall_unknown_tool (s : Server) (req : JSONRPCRequest)
    (cr : CallToolRequest)
    (hm : req.Method = "tools/call")
    (hd : decodeCallToolRequest req.Params = Except.ok cr)
    (hh : lookupMap s.Handlers cr.Name = none) :
    (processRequest s req).1 =
      some { JSONRPC := "2.0", Result := none,
             Error := some { Code := -32601, Message := "Method not found", Data := none },
             ID := req.ID } := by
  unfold processRequest
  rw [hm]
  simp [hd, hh]

/-- A `tools/call` request naming a tool absent from the registry. -/
def ghostReq : JSONRPCRequest :=
  { JSONRPC := "2.0", Method := "tools/call",
    Params := some (Json.obj [("name", Json.str "ghost_tool")]), ID := Json.num 4 }

theorem toolsCall_unknown_tool_witness :
    (processRequest exampleServer ghostReq).1 =
      some { JSONRPC := "2.0", Result := none,
             Error := some { Code := -32601, Message := "Method not found", Data := none },
             ID := Json.num 4 } :=
  toolsCall_unknown_tool exampleServer ghostReq
    { Name := "ghost_tool", Arguments := [] } rfl rfl rfl

/-- A `tools/call` request whose params object lacks the `name` field. -/
def missingNameReq : JSONRPCRequest :=
  { JSONRPC := "2.0", Method := "tools/call",
    Params := some (Json.obj [("arguments", Json.obj [])]), ID := Json.num 1 }

/-- C1 counterexample: a `tools/call` whose params object merely lacks the
`name` field decodes successfully with an empty tool name, so the
dispatcher answers with code -32601 (unknown tool), not -32602 as the
claim states; no handler runs. -/
theorem toolsCall_missingName_counterexample :
    ((processRequest exampleServer missingNameReq).1.bind
        (fun r => r.Error.map (fun e => e.Code))) = some (-32601) ∧
      ((processRequest exampleServer missingNameReq).1.bind
        (fun r => r.Error.map (fun e => e.Code))) ≠ some (-32602) ∧
      (processRequest exampleServer missingNameReq).2 = [] := by
  refine ⟨rfl, by decide, rfl⟩

/-- C1 (amended): params that fail to decode (absent, a non-object
non-null value, or wrongly typed `name`/`arguments` fields) yield code
-32602 with no handler invoked; a params object that merely lacks `name`
decodes with the empty tool name and, when no tool is registered under
the empty name, yields code -32601, again with no handler invoked. -/
theorem toolsCall_invalid_params (s : Server) (req : JSONRPCRequest)
    (hm : req.Method = "tools/call") :
    (decodeCallToolRequest req.Params = Except.error () →
      (processRequest s req).1 =
        some { JSONRPC := "2.0", Result := none,
               Error := some { Code := -32602, Message := "Invalid params", Data := none },
               ID := req.ID } ∧ (processRequest s req).2 = [])
    ∧ (∀ fields cr, req.Params = some (Json.obj fields) →
        getField fields "name" = none →
        decodeCallToolRequest req.Params = Except.ok cr → cr.Name = "")
    ∧ (∀ cr, decodeCallToolRequest req.Params = Except.ok cr → cr.Name = "" →
        lookupMap s.Handlers "" = none →
        (processRequest s req).1 =
          some { JSONRPC := "2.0", Result := none,
                 Error := some { Code := -32601, Message := "Method not found", Data := none },
                 ID := req.ID } ∧ (processRequest s req).2 = []) := by
  refine ⟨?_, ?_, ?_⟩
  · intro hd
    unfold processRequest
    rw [hm]
    simp [hd]
  · intro fields cr hp hname hok
    rw [hp] at hok
    simp only [decodeCallToolRequest, decodeStringField, hname] at hok
    split at hok
    · exact absurd hok (by simp)
    · simp only [Except.ok.injEq] at hok
      rw [← hok]
  · intro cr hok hname hnone
    unfold processRequest
    rw [hm]
    simp [hok, hname, hnone]

/-- A `tools/call` request whose params are a bare string. -/
def badParamsReq : JSONRPCRequest :=
  { JSONRPC := "2.0", Method := "tools/call",
    Params := some (Json.str "zap"), ID := Json.num 2 }

theorem toolsCall_invalid_params_witness :
    (processRequest exampleServer badParamsReq).1 =
      some { JSONRPC := "2.0", Result := none,
             Error := some { Code := -32602, Message := "Invalid params", Data := none },
             ID := Json.num 2 } ∧ (processRequest exampleServer badParamsReq).2 = [] :=
  (toolsCall_invalid_params exampleServer badParamsReq rfl).1 rfl

/-- C9: a `notifications/initialized` request produces no response: the
dispatcher returns without building one, and the dispatch task enqueues
nothing on any session queue. -/
theorem notification_produces_no_response (s : Server) (req : JSONRPCRequest)
    (hm : req.Method = "notifications/initialized") :
    processRequest s req = (none, []) ∧
      ∀ c : ChanState, dispatchRequest s req c = DispatchOutcome.noResponse := by
  have hp : processRequest s req = (none, []) := by
    unfold processRequest
    rw [hm]
    simp
  exact ⟨hp, fun c => by unfold dispatchRequest; rw [hp]⟩

/-- The notification request of the spec's scenario. -/
def notifReq : JSONRPCRequest :=
  { JSONRPC := "2.0", Method := "notifications/initialized", Params := none, ID := Json.null }

theorem notification_witness :
    processRequest exampleServer notifReq = (none, []) ∧
      dispatchRequest exampleServer notifReq { buf := [], cap := 10 } =
        DispatchOutcome.noResponse :=
  ⟨(notification_produces_no_response exampleServer notifReq rfl).1,
   (notification_produces_no_response exampleServer notifReq rfl).2 { buf := [], cap := 10 }⟩

/-- The `tools/list` request of the spec's scenario. -/
def listReq : JSONRPCRequest :=
  { JSONRPC := "2.0", Method := "tools/list", Params := none, ID := Json.num 3 }

/-- The response the dispatcher produces for `listReq` on `exampleServer`. -/
def listResp : JSONRPCResponse :=
  { JSONRPC := "2.0",
    Result := some (RpcResult.toolsList (exampleServer.Tools.map Prod.snd)),
    Error := none, ID := Json.num 3 }

theorem response_id_witness : listResp.ID = listReq.ID :=
  response_id_matches_request exampleServer listReq listResp [] rfl

/-- A request with an unrecognized method. -/
def bogusReq : JSONRPCRequest :=
  { JSONRPC := "2.0", Method := "bogus/method", Params := none, ID := Json.num 5 }

/-- The unknown-method error response for `bogusReq`. -/
def bogusResp : JSONRPCResponse :=
  { JSONRPC := "2.0", Result := none,
    Error := some { Code := -32601, Message := "Method not found: bogus/method", Data := none },
    ID := Json.num 5 }

theorem response_xor_witness :
    (bogusResp.Result.isSome = true ∧ bogusResp.Error = none) ∨
      (bogusResp.Result = none ∧ bogusResp.Error.isSome = true) :=
  response_result_xor_error exampleServer bogusReq bogusResp [] rfl

/-- C5: the message-submission handler accepts with 202 and forwards to
the dispatcher exactly when the verb is POST, `sessionId` is nonempty and
names a live session, and the body decodes as a JSON-RPC request; it
answers 405 on a wrong verb, 400 on a missing session id or malformed
body, and 404 on an unknown session id, forwarding nothing in every
failure case. -/
theorem handleMessage_statuses (dir : List (String × ChanState)) (method sid : String)
    (body : Option Json) :
    (method ≠ "POST" →
      handleMessage dir method sid body = { status := 405, dispatched := none })
    ∧ (method = "POST" → sid = "" →
      handleMessage dir method sid body = { status := 400, dispatched := none })
    ∧ (method = "POST" → sid ≠ "" → lookupMap dir sid = none →
      handleMessage dir method sid body = { status := 404, dispatched := none })
    ∧ (∀ c, method = "POST" → sid ≠ "" → lookupMap dir sid = some c →
      decodeJSONRPCRequest body = Except.error () →
      handleMessage dir method sid body = { status := 400, dispatched := none })
    ∧ (∀ c req, method = "POST" → sid ≠ "" → lookupMap dir sid = some c →
      decodeJSONRPCRequest body = Except.ok req →
      handleMessage dir method sid body = { status := 202, dispatched := some req }) := by
  refine ⟨?_, ?_, ?_, ?_, ?_⟩ <;> intros <;> unfold handleMessage <;> simp_all

/-- A session directory with one live session. -/
def exampleDir : List (String × ChanState) := [("s1", { buf := [], cap := 10 })]

/-- The body of the spec's `tools/list` scenario POST. -/
def listBody : Option Json :=
  some (Json.obj [("jsonrpc", Json.str "2.0"), ("method", Json.str "tools/list"),
                  ("id", Json.num 1)])

theorem handleMessage_witness :
    handleMessage exampleDir "POST" "s1" listBody =
      { status := 202,
        dispatched := some { JSONRPC := "2.0", Method := "tools/list", Params := none,
                             ID := Json.num 1 } } :=
  (handleMessage_statuses exampleDir "POST" "s1" listBody).2.2.2.2
    { buf := [], cap := 10 }
    { JSONRPC := "2.0", Method := "tools/list", Params := none, ID := Json.num 1 }
    rfl (by decide) rfl rfl

/-- C6: the first event written on every stream is the endpoint
announcement carrying the message-submission path with the session's
identifier as query parameter, and every message event comes strictly
after it. -/
theorem sse_first_event_is_endpoint (sid : String) (inputs : List SSEInput) :
    (handleSSE sid inputs).head? =
        some (SSEEvent.endpointEv ("/message?sessionId=" ++ sid)) ∧
      ∀ (i : Nat) (h : i < (handleSSE sid inputs).length) (m : String),
        (handleSSE sid inputs).get ⟨i, h⟩ = SSEEvent.messageEv m → 0 < i := by
  constructor
  · rfl
  · intro i h m heq
    cases i with
    | zero => exact absurd heq (by simp [handleSSE])
    | succ n => exact Nat.succ_pos n

theorem sse_first_event_witness :
    (handleSSE "abc123" [SSEInput.msg "r1"]).head? =
        some (SSEEvent.endpointEv "/message?sessionId=abc123") ∧ 0 < 1 :=
  ⟨(sse_first_event_is_endpoint "abc123" [SSEInput.msg "r1"]).1,
   (sse_first_event_is_endpoint "abc123" [SSEInput.msg "r1"]).2 1 (by decide) "r1" rfl⟩

/-- From a state whose consumer loop is gone and whose buffer is full, no
step of the session system is possible: nothing can ever drain the queue
(only the consumer dequeues), so the pending send can never complete. -/
theorem sysStep_stuck (s : SessionSys) (halive : s.consumerAlive = false)
    (hfull : ¬ s.chan.buf.length < s.chan.cap) : ∀ t, ¬ SysStep s t := by
  intro t hstep
  cases hstep with
  | send m h => exact hfull h
  | recv m rest ha hb => rw [halive] at ha; exact Bool.noConfusion ha
  | cancel ha => rw [halive] at ha; exact Bool.noConfusion ha

/-- A stuck state reaches only itself. -/
theorem sysStep_stuck_rtg (s : SessionSys) (halive : s.consumerAlive = false)
    (hfull : ¬ s.chan.buf.length < s.chan.cap) :
    ∀ t, Relation.ReflTransGen SysStep s t → t = s := by
  intro t h
  induction h with
  | refl => rfl
  | tail h1 h2 ih =>
    rw [ih] at h2
    exact absurd h2 (sysStep_stuck s halive hfull _)

/-- C2 (amended): once the session's consumer loop has stopped, a dispatch
task's enqueue never crashes or errors the caller; with buffer room the
message is silently buffered (and, nothing consuming it, dropped), but on
a full queue the send is blocked and stays blocked in every reachable
future state — the producing task is stuck forever. -/
theorem enqueue_after_removal (s : SessionSys) (halive : s.consumerAlive = false) :
    (∀ m, s.chan.buf.length < s.chan.cap →
      trySend s.chan m = SendOutcome.sent { buf := s.chan.buf ++ [m], cap := s.chan.cap })
    ∧ (¬ s.chan.buf.length < s.chan.cap →
      (∀ m, trySend s.chan m = SendOutcome.blocked)
      ∧ (∀ t, Relation.ReflTransGen SysStep s t →
          ∀ m, trySend t.chan m = SendOutcome.blocked)) := by
  constructor
  · intro m h
    unfold trySend
    simp [h]
  · intro hfull
    constructor
    · intro m
      unfold trySend
      simp [hfull]
    · intro t ht m
      rw [sysStep_stuck_rtg s halive hfull t ht]
      unfold trySend
      simp [hfull]

/-- Ten buffered messages: a full queue at the source's capacity of 10. -/
def fullBuf : List String :=
  ["m1", "m2", "m3", "m4", "m5", "m6", "m7", "m8", "m9", "m10"]

theorem enqueue_after_removal_witness :
    trySend { buf := fullBuf, cap := 10 } "late" = SendOutcome.blocked :=
  ((enqueue_after_removal { chan := { buf := fullBuf, cap := 10 }, consumerAlive := false }
      rfl).2 (by decide)).1 "late"

/-- C2 counterexample: with the owning stream gone and the bounded queue
holding its ten-message capacity, the enqueue of a response does not
complete — the producing task blocks, contradicting the claim that the
enqueue cannot block indefinitely even when the queue is full. -/
theorem enqueue_blocks_counterexample :
    trySend { buf := List.replicate 10 "queued", cap := 10 } "response" =
      SendOutcome.blocked := rfl
